import Mathlib

/-!
Shallow embedding of the service layer of a small HTTP wrapper around an
external AI CLI tool (services/copilot_service.py), together with proofs of
the behavioural properties claimed for it.

Python strings are modelled as `List Char`; file contents (Python bytes) are
modelled as `List Nat` with every element below 256.  Subprocess and
filesystem effects are modelled by passing their outcomes in explicitly.
-/

/-- Whitespace characters stripped by the Python str.strip method (the ASCII
subset, which is what the service ever encounters). -/
def py_is_space (c : Char) : Bool :=
  c = ' ' || c = '\t' || c = '\n' || c = '\x0d' || c = '\x0b' || c = '\x0c'

/-- Drop leading whitespace, as the left half of str.strip. -/
def py_lstrip (l : List Char) : List Char := l.dropWhile py_is_space

/-- Drop trailing whitespace, as the right half of str.strip. -/
def py_rstrip (l : List Char) : List Char :=
  (l.reverse.dropWhile py_is_space).reverse

/-- Python str.strip with no arguments: drop whitespace from both ends. -/
def py_strip (l : List Char) : List Char := py_lstrip (py_rstrip l)

/-- Python str.split with a single-character separator: splits at every
occurrence of the separator and keeps empty pieces, so the result is never
the empty list (the empty string splits to one empty piece). -/
def py_split (sep : Char) : List Char → List (List Char)
  | [] => [[]]
  | c :: rest =>
    match py_split sep rest with
    | [] => [[c]]
    | w :: ws => if c = sep then [] :: w :: ws else (c :: w) :: ws

/-- Python sep.join over a list of strings. -/
def join_sep (sep : List Char) : List (List Char) → List Char
  | [] => []
  | [l] => l
  | l :: l2 :: ls => l ++ sep ++ join_sep sep (l2 :: ls)

/-- Python str.lower restricted to ASCII letters, which is all the scanner
compares (extension tables are ASCII). -/
def py_lower (s : String) : String := String.mk (s.toList.map Char.toLower)

/-- Index of the last dot of a filename, if any. -/
def last_dot_index (cs : List Char) : Option Nat :=
  match cs.reverse.findIdx? (fun c => c = '.') with
  | none => none
  | some j => some (cs.length - 1 - j)

/-- pathlib Path.suffix: the substring from the last dot of the name,
unless that dot is the first or the last character of the name. -/
def py_suffix (name : String) : String :=
  let cs := name.toList
  match last_dot_index cs with
  | none => ""
  | some i => if 0 < i ∧ i < cs.length - 1 then String.mk (cs.drop i) else ""

/-- Python str.startswith applied to a single dot. -/
def starts_with_dot (name : String) : Bool :=
  match name.toList with
  | '.' :: _ => true
  | _ => false

/-! ## Output sanitizer (lines 393-415, method named parse copilot output)

The ANSI pattern is the regex ESC followed by either one character in the
classes at-to-Z or backslash-to-underscore, or by a bracketed CSI body:
zero or more parameter bytes 0x30-0x3F, zero or more intermediate bytes
0x20-0x2F, one final byte 0x40-0x7E.  All four character classes are
pairwise disjoint, so greedy regex matching is exactly maximal munch. -/

/-- Final single-character alternative of the ANSI escape pattern. -/
def is_single_esc (c : Char) : Bool :=
  (0x40 ≤ c.toNat && c.toNat ≤ 0x5A) || (0x5C ≤ c.toNat && c.toNat ≤ 0x5F)

/-- CSI parameter byte class 0-? of the ANSI escape pattern. -/
def is_csi_param (c : Char) : Bool := 0x30 ≤ c.toNat && c.toNat ≤ 0x3F

/-- CSI intermediate byte class space-slash of the ANSI escape pattern. -/
def is_csi_inter (c : Char) : Bool := 0x20 ≤ c.toNat && c.toNat ≤ 0x2F

/-- CSI final byte class at-tilde of the ANSI escape pattern. -/
def is_csi_final (c : Char) : Bool := 0x40 ≤ c.toNat && c.toNat ≤ 0x7E

/-- Attempt to match the part of the ANSI escape pattern after the ESC
character; on success return the remainder of the input after the match. -/
def ansi_match_rest : List Char → Option (List Char)
  | [] => none
  | c :: r =>
    if c = '[' then
      match (r.dropWhile is_csi_param).dropWhile is_csi_inter with
      | f :: r3 => if is_csi_final f then some r3 else none
      | [] => none
    else if is_single_esc c then some r else none

/-- Fuel-driven worker for the substitution pass: every step consumes at
least one input character, so fuel equal to the input length never runs
out (ansi_match_rest_length bounds the consumed remainder). -/
def ansi_sub_fuel : Nat → List Char → List Char
  | 0, l => l
  | _ + 1, [] => []
  | fuel + 1, c :: rest =>
    if c = '\x1b' then
      match ansi_match_rest rest with
      | some rest2 => ansi_sub_fuel fuel rest2
      | none => c :: ansi_sub_fuel fuel rest
    else c :: ansi_sub_fuel fuel rest

/-- Single left-to-right pass of re.sub with the ANSI escape pattern and an
empty replacement: at each position, delete the leftmost match and continue
scanning after it, otherwise keep the character.  The pass is not iterated. -/
def ansi_sub (l : List Char) : List Char := ansi_sub_fuel l.length l

/-- True when the input begins with a complete match of the ANSI pattern. -/
def starts_ansi : List Char → Bool
  | c :: rest => c = '\x1b' && (ansi_match_rest rest).isSome
  | [] => false

/-- True when some position of the input begins a complete match of the
ANSI escape pattern, i.e. the text still contains an escape sequence. -/
def contains_ansi : List Char → Bool
  | [] => false
  | c :: rest => starts_ansi (c :: rest) || contains_ansi rest

/-- The fixed spinner glyph set of the sanitizer (line 408). -/
def spinner_glyphs : List Char := ['⠋', '⠙', '⠹', '⠸', '⠼', '⠴', '⠦', '⠧', '⠇', '⠏']

/-- True when a line contains any spinner glyph (line 408). -/
def line_has_glyph (line : List Char) : Bool :=
  spinner_glyphs.any (fun c => line.elem c)

/-- The accumulator loop of lines 404-413: drop lines containing spinner
glyphs, drop blank lines while the accumulator is still empty, keep the
rest in order. -/
def clean_lines (acc : List (List Char)) : List (List Char) → List (List Char)
  | [] => acc
  | line :: rest =>
    if line_has_glyph line then clean_lines acc rest
    else if acc.isEmpty && (py_strip line).isEmpty then clean_lines acc rest
    else clean_lines (acc ++ [line]) rest

/-- Lines 393-415: sanitize raw CLI output.  Empty input yields the fixed
placeholder; otherwise strip ANSI escapes in one pass, drop spinner and
leading blank lines, join the survivors with newlines and strip the result. -/
def parse_copilot_output (output : List Char) : List Char :=
  if output = [] then "No response from Copilot".toList
  else
    let no_ansi := ansi_sub output
    let ls := py_split '\n' no_ansi
    py_strip (join_sep ['\n'] (clean_lines [] ls))

/-! ## Workspace scanner (lines 81-214)

A directory snapshot is a list of regular files, each given by its ancestor
directory components relative to the workspace root, its filename, and its
byte content (its stat size equals its byte length in a consistent
snapshot). -/

/-- One regular file of a directory snapshot. -/
structure FileEntry where
  dirs : List String
  name : String
  content : List Nat
deriving DecidableEq

/-- One returned file record of the scan (the dict built at lines 165-174);
the path field holds the relative path components, serialized with forward
slashes. -/
structure Artifact where
  path : List String
  name : String
  extension : String
  size : Nat
  is_binary : Bool
  mime_type : String
  content_base64 : List Char
  content_text : Option (List Char)
deriving DecidableEq

/-- Directory components ignored by the scan (lines 90-99). -/
def IGNORED_DIRS : List String :=
  [".venv", "venv", "env", ".env",
   "__pycache__", ".pytest_cache", ".mypy_cache", ".ruff_cache",
   "node_modules", ".npm",
   ".git", ".svn", ".hg",
   ".idea", ".vscode", ".vs",
   "dist", "build", "target", "out",
   ".tox", ".nox", "htmlcov", ".coverage",
   "egg-info", ".eggs"]

/-- Extensions ignored by the scan (lines 101-107). -/
def IGNORED_EXTENSIONS : List String :=
  [".pyc", ".pyo", ".pyd",
   ".so", ".dll", ".dylib",
   ".exe", ".bin",
   ".log", ".tmp", ".temp",
   ".DS_Store", ".gitignore", ".gitattributes"]

/-- Filenames ignored by the scan (lines 109-112). -/
def IGNORED_FILES : List String :=
  [".DS_Store", "Thumbs.db", "desktop.ini",
   ".env", ".env.local", ".env.development"]

/-- The dotfile allow list of line 136. -/
def ALLOWED_DOTFILES : List String := [".gitignore", ".dockerignore"]

/-- The extension to MIME type table of lines 183-213. -/
def mime_map : List (String × String) :=
  [(".py", "text/x-python"), (".js", "text/javascript"), (".ts", "text/typescript"),
   (".jsx", "text/jsx"), (".tsx", "text/tsx"), (".json", "application/json"),
   (".html", "text/html"), (".css", "text/css"), (".md", "text/markdown"),
   (".txt", "text/plain"), (".yaml", "text/yaml"), (".yml", "text/yaml"),
   (".xml", "application/xml"), (".sh", "text/x-shellscript"),
   (".bash", "text/x-shellscript"), (".ps1", "text/x-powershell"),
   (".java", "text/x-java"), (".c", "text/x-c"), (".cpp", "text/x-c++"),
   (".h", "text/x-c"), (".cs", "text/x-csharp"), (".go", "text/x-go"),
   (".rs", "text/x-rust"), (".rb", "text/x-ruby"), (".php", "text/x-php"),
   (".sql", "text/x-sql"), (".dockerfile", "text/x-dockerfile"),
   (".gitignore", "text/plain"), (".env", "text/plain")]

/-- Lines 181-214: MIME type lookup with a default for unknown extensions. -/
def get_mime_type (extension : String) : String :=
  match mime_map.find? (fun p => p.1 == extension) with
  | some p => p.2
  | none => "application/octet-stream"

/-! ### Base64 (models base64.b64encode and b64decode of RFC 4648, line 159) -/

/-- The value to character table of the standard base64 alphabet. -/
def sextet (n : Nat) : Char :=
  if n < 26 then Char.ofNat (65 + n)
  else if n < 52 then Char.ofNat (97 + (n - 26))
  else if n < 62 then Char.ofNat (48 + (n - 52))
  else if n = 62 then '+' else '/'

/-- The character to value table of the standard base64 alphabet. -/
def unsextet (c : Char) : Nat :=
  let n := c.toNat
  if 65 ≤ n ∧ n ≤ 90 then n - 65
  else if 97 ≤ n ∧ n ≤ 122 then n - 97 + 26
  else if 48 ≤ n ∧ n ≤ 57 then n - 48 + 52
  else if n = 43 then 62 else 63

/-- base64.b64encode: encode bytes three at a time into four alphabet
characters, padding a final group of one or two bytes with equals signs. -/
def b64encode : List Nat → List Char
  | [] => []
  | [a] => [sextet (a / 4), sextet (a % 4 * 16), '=', '=']
  | [a, b] => [sextet (a / 4), sextet (a % 4 * 16 + b / 16), sextet (b % 16 * 4), '=']
  | a :: b :: c :: rest =>
    sextet (a / 4) :: sextet (a % 4 * 16 + b / 16) ::
    sextet (b % 16 * 4 + c / 64) :: sextet (c % 64) :: b64encode rest

/-- base64.b64decode on correctly padded input: decode four characters at a
time into three bytes, with equals padding marking a short final group. -/
def b64decode : List Char → List Nat
  | w :: x :: y :: z :: rest =>
    if y = '=' then [unsextet w * 4 + unsextet x / 16]
    else if z = '=' then
      [unsextet w * 4 + unsextet x / 16, unsextet x % 16 * 16 + unsextet y / 4]
    else
      (unsextet w * 4 + unsextet x / 16) ::
      (unsextet x % 16 * 16 + unsextet y / 4) ::
      (unsextet y % 4 * 64 + unsextet z) :: b64decode rest
  | _ => []

/-! ### UTF-8 (models the strict bytes.decode call at line 153) -/

/-- A UTF-8 continuation byte. -/
def is_cont (b : Nat) : Bool := 0x80 ≤ b && b ≤ 0xBF

/-- Validity of the three bytes of a three-byte UTF-8 sequence, excluding
overlong encodings (lead 0xE0) and surrogates (lead 0xED). -/
def utf8_valid3 (b b1 b2 : Nat) : Bool :=
  is_cont b1 && is_cont b2 &&
  (if b = 0xE0 then 0xA0 ≤ b1 else if b = 0xED then b1 ≤ 0x9F else true)

/-- Validity of the four bytes of a four-byte UTF-8 sequence, excluding
overlong encodings (lead 0xF0) and values above 0x10FFFF (lead 0xF4). -/
def utf8_valid4 (b b1 b2 b3 : Nat) : Bool :=
  is_cont b1 && is_cont b2 && is_cont b3 &&
  (if b = 0xF0 then 0x90 ≤ b1 else if b = 0xF4 then b1 ≤ 0x8F else true)

/-- Strict UTF-8 decoding: some decoded text when the bytes are valid
UTF-8, none when any position fails to decode (the UnicodeDecodeError
branch of line 155). -/
def utf8_decode : List Nat → Option (List Char)
  | [] => some []
  | b :: rest =>
    if b ≤ 0x7F then (utf8_decode rest).map (fun cs => Char.ofNat b :: cs)
    else if 0xC2 ≤ b && b ≤ 0xDF then
      match rest with
      | b1 :: rest2 =>
        if is_cont b1 then
          (utf8_decode rest2).map (fun cs => Char.ofNat ((b - 0xC0) * 0x40 + (b1 - 0x80)) :: cs)
        else none
      | [] => none
    else if 0xE0 ≤ b && b ≤ 0xEF then
      match rest with
      | b1 :: b2 :: rest3 =>
        if utf8_valid3 b b1 b2 then
          (utf8_decode rest3).map
            (fun cs => Char.ofNat ((b - 0xE0) * 0x1000 + (b1 - 0x80) * 0x40 + (b2 - 0x80)) :: cs)
        else none
      | _ => none
    else if 0xF0 ≤ b && b ≤ 0xF4 then
      match rest with
      | b1 :: b2 :: b3 :: rest4 =>
        if utf8_valid4 b b1 b2 b3 then
          (utf8_decode rest4).map
            (fun cs => Char.ofNat ((b - 0xF0) * 0x40000 + (b1 - 0x80) * 0x1000 +
              (b2 - 0x80) * 0x40 + (b3 - 0x80)) :: cs)
        else none
      | _ => none
    else none

/-- Lines 117-177, the per-file body of the scan loop: apply the five skip
rules in source order, then build the returned record for a surviving file.
Reading cannot fail in a snapshot, so the per-file exception handler of
line 176 has no failing path to model. -/
def scan_file (e : FileEntry) : Option Artifact :=
  if e.dirs.any (fun part => part ∈ IGNORED_DIRS) then none
  else if py_lower (py_suffix e.name) ∈ IGNORED_EXTENSIONS then none
  else if e.name ∈ IGNORED_FILES then none
  else if starts_with_dot e.name && ¬ (e.name ∈ ALLOWED_DOTFILES) then none
  else if e.content.length > 1024 * 1024 then none
  else
    let text := utf8_decode e.content
    some
      { path := e.dirs ++ [e.name]
        name := e.name
        extension := py_lower (py_suffix e.name)
        size := e.content.length
        is_binary := text.isNone
        mime_type := get_mime_type (py_lower (py_suffix e.name))
        content_base64 := b64encode e.content
        content_text := text }

/-- Lines 81-179: scan the whole snapshot, returning the records of the
files that survive the ignore rules, in traversal order. -/
def scan_workspace_files (snapshot : List FileEntry) : List Artifact :=
  snapshot.filterMap scan_file

/-! ## Response assembler: prompt construction (lines 376-391) -/

/-- One chat message as received over HTTP: both dict keys may be absent,
which the source reads with msg.get and the defaults user and empty. -/
structure Message where
  role : Option String
  content : Option String
deriving DecidableEq

/-- One iteration of the loop at lines 380-389: the segment a message
contributes to the prompt, or none when its role value is none of system,
user, assistant (the loop has no else branch, so such a message is
silently skipped). -/
def prompt_segment (m : Message) : Option (List Char) :=
  let role := m.role.getD "user"
  let content := (m.content.getD "").toList
  if role = "system" then some ("System instructions: ".toList ++ content)
  else if role = "user" then some ("User: ".toList ++ content)
  else if role = "assistant" then some ("Assistant: ".toList ++ content)
  else none

/-- Lines 376-391: build one prompt from the message history by collecting
the per-message segments and joining them with a blank line. -/
def build_prompt (messages : List Message) : List Char :=
  join_sep ('\n' :: '\n' :: []) (messages.filterMap prompt_segment)

/-! ## Chat response selection (lines 355-358) -/

/-- Lines 355-358 of the chat method: select the response text from the
completed subprocess result.  A non-zero exit uses the stripped stderr when
stderr is non-empty (Python truthiness) and a fixed fallback otherwise; a
zero exit sanitizes stdout.  This is a total function: no exit code raises. -/
def response_text (stdout stderr : List Char) (code : Int) : List Char :=
  if code ≠ 0 then
    if stderr ≠ [] then py_strip stderr else "Copilot CLI error".toList
  else parse_copilot_output stdout

/-! ## Simulated streaming (lines 480-522)

Each chunk of the simulated stream is serialized in the source as one SSE
frame of the form data colon json newline newline; the payloads are
modelled structurally, and the final sentinel frame carries its literal
text. -/

/-- One simulated stream chunk: a word delta with its finish reason, the
trailing file list chunk, or the literal sentinel frame. -/
inductive StreamChunk where
  | delta (content : List Char) (finish : Option String)
  | fileList (files : List Artifact)
  | done (frame : List Char)
deriving DecidableEq

/-- The loop at lines 499-509: one delta chunk per word of the split
response, index compared against the word count to place the trailing
space and the terminal finish reason. -/
def word_chunks (words : List (List Char)) : List StreamChunk :=
  words.mapIdx (fun i w =>
    StreamChunk.delta (w ++ (if i < words.length - 1 then [' '] else []))
      (if i < words.length - 1 then none else some "stop"))

/-- Lines 495-522: the full simulated stream for a completed response:
word deltas, then the file list chunk when files exist, then the literal
sentinel frame. -/
def stream_chat_chunks (content : List Char) (files : List Artifact) : List StreamChunk :=
  word_chunks (py_split ' ' content)
    ++ (if files.isEmpty then [] else [StreamChunk.fileList files])
    ++ [StreamChunk.done "data: [DONE]\n\n".toList]

/-! ## Workspace lifecycle (lines 64-79 and 341-374) -/

/-- Observable workspace events of one chat request. -/
inductive ChatEvent where
  | createWorkspace
  | cleanupAttempt
  | step
deriving DecidableEq

/-- The try block body of lines 344-369 is summarized by the events it
emits and its outcome: a normal return or a raised exception. -/
def try_finally_trace (body : List ChatEvent × Except String Unit) (fin : List ChatEvent) :
    List ChatEvent × Except String Unit :=
  (body.1 ++ fin, body.2)

/-- Lines 341-374 of the chat method: create the workspace, run the body
under try, and on every exit path run the finally block, which attempts
cleanup exactly when keep_workspace is false. -/
def chat_trace (keep_workspace : Bool) (body : List ChatEvent × Except String Unit) :
    List ChatEvent × Except String Unit :=
  let t := try_finally_trace body
    (if keep_workspace then [] else [ChatEvent.cleanupAttempt])
  (ChatEvent.createWorkspace :: t.1, t.2)

/-- Lines 72-79: cleanup of the workspace directory.  The removal runs only
when the path still exists, and the surrounding handler turns any removal
error into a logged warning, so the caller always gets a normal return. -/
def cleanup_workspace (path_exists : Bool) (rmtree_result : Except String Unit) :
    Except String Unit :=
  match (if path_exists then rmtree_result else Except.ok ()) with
  | Except.ok _ => Except.ok ()
  | Except.error _ => Except.ok ()

/-! ## Availability prober (lines 279-318) -/

/-- Outcome of spawning the version check subprocess: the executable was
missing, or it completed with captured stdout, stderr and exit code. -/
inductive SpawnOutcome where
  | notFound
  | completed (stdout stderr : List Char) (code : Int)
deriving DecidableEq

/-- Probe result dict: keys absent in a branch are modelled as none. -/
structure ProbeResult where
  available : Bool
  error : Option String
  version : Option (List Char)
  has_token : Option Bool
  default_model : Option String
deriving DecidableEq

/-- Lines 279-318: probe CLI availability.  A missing executable or a
non-zero version check exit yields unavailable; an empty configured token
yields unavailable with the token diagnostic even though the version check
succeeded; otherwise the probe reports available. -/
def check_copilot_available (spawn : SpawnOutcome) (gh_token : String)
    (default_model : String) : ProbeResult :=
  match spawn with
  | SpawnOutcome.notFound =>
    { available := false
      error := some "Copilot CLI not found. Install with: winget install GitHub.Copilot"
      version := none, has_token := none, default_model := none }
  | SpawnOutcome.completed stdout _stderr code =>
    if code ≠ 0 then
      { available := false, error := some "Copilot CLI not installed"
        version := none, has_token := none, default_model := none }
    else
      let version := py_strip stdout
      if gh_token = "" then
        { available := false
          error := some "GH_TOKEN or GITHUB_TOKEN not set. Create a PAT with Copilot Requests permission."
          version := some version, has_token := some false, default_model := none }
      else
        { available := true, error := none, version := some version
          has_token := some true, default_model := some default_model }

/-! ## Reference definitions shaped after the specification wording

These re-state, with a different recursion structure, what the amended
claims say the source functions do; the claim theorems prove the source
translations extensionally equal to them. -/

/-- True when the effective role of a message (the role key, defaulting to
user when absent) is one of the three recognized role values. -/
def recognized_role (m : Message) : Bool :=
  let r := m.role.getD "user"
  r == "system" || r == "user" || r == "assistant"

/-- The role-tagged text of a recognized message, spelled after the
amended claim: system and assistant get their own tags, everything else
(the user role, or an absent role key) gets the User tag. -/
def segment_text (m : Message) : List Char :=
  let r := m.role.getD "user"
  let c := (m.content.getD "").toList
  if r = "system" then "System instructions: ".toList ++ c
  else if r = "assistant" then "Assistant: ".toList ++ c
  else "User: ".toList ++ c

/-- Blank-line joining of the recognized message segments, written as a
direct recursion over the message list. -/
def build_prompt_spec : List Message → List Char
  | [] => []
  | m :: rest =>
    if recognized_role m then
      if rest.any recognized_role then
        segment_text m ++ '\n' :: '\n' :: build_prompt_spec rest
      else segment_text m
    else build_prompt_spec rest

/-- The word delta sequence as the claim describes it: every word but the
last is emitted with a trailing space and no finish reason, the last word
alone is emitted bare with the terminal stop reason. -/
def deltas_spec : List (List Char) → List StreamChunk
  | [] => []
  | [w] => [StreamChunk.delta w (some "stop")]
  | w :: w2 :: ws => StreamChunk.delta (w ++ [' ']) none :: deltas_spec (w2 :: ws)

/-! ## Concrete inputs used by witnesses and counterexamples -/

/-- A one-file snapshot holding the two UTF-8 bytes of the text hi. -/
def demo_entry : FileEntry := { dirs := [], name := "hello.txt", content := [104, 105] }

/-- The snapshot containing only demo_entry. -/
def demo_snapshot : List FileEntry := [demo_entry]

/-- The record the scan returns for demo_entry. -/
def demo_artifact : Artifact :=
  { path := ["hello.txt"], name := "hello.txt", extension := ".txt", size := 2
    is_binary := false, mime_type := "text/plain"
    content_base64 := "aGk=".toList, content_text := some ['h', 'i'] }

/-- A snapshot whose single file has the pathlib suffix .DS_Store, which
appears verbatim in the ignored extension set but, compared lowercased,
never matches it. -/
def ds_store_snapshot : List FileEntry :=
  [{ dirs := [], name := "x.DS_Store", content := [104] }]

/-- Raw CLI output on which the single substitution pass leaves a complete
escape sequence: deleting the leftmost match ESC bracket A joins the
leading ESC to the literal text bracket 3 1 m that followed the match. -/
def reformed_ansi_input : List Char :=
  '\x1b' :: '\x1b' :: '[' :: 'A' :: '[' :: '3' :: '1' :: 'm' :: 'h' :: 'i' :: []

/-! ## Helper lemmas -/

theorem mem_dropWhile {p : Char → Bool} {c : Char} {l : List Char}
    (h : c ∈ l.dropWhile p) : c ∈ l := by
  induction l with
  | nil => simp [List.dropWhile] at h
  | cons x t ih =>
    simp only [List.dropWhile] at h
    split at h
    · exact List.mem_cons_of_mem x (ih h)
    · exact h

theorem dropWhile_head_false {p : Char → Bool} {l t : List Char} {c : Char}
    (h : l.dropWhile p = c :: t) : p c = false := by
  induction l with
  | nil => simp [List.dropWhile] at h
  | cons x xs ih =>
    simp only [List.dropWhile] at h
    split at h
    · exact ih h
    · cases h
      rename_i hp
      simpa using hp

theorem dropWhile_getLast? {p : Char → Bool} (l : List Char) :
    l.dropWhile p = [] ∨ (l.dropWhile p).getLast? = l.getLast? := by
  induction l with
  | nil => exact Or.inl rfl
  | cons x t ih =>
    simp only [List.dropWhile]
    split
    · cases ht : t.dropWhile p with
      | nil => exact Or.inl rfl
      | cons y ys =>
        right
        rcases ih with h | h
        · rw [ht] at h; cases h
        · rw [ht] at h
          rw [h]
          cases t with
          | nil => simp [List.dropWhile] at ht
          | cons z zs => simp [List.getLast?_cons_cons]
    · exact Or.inr rfl

theorem dropWhile_eq_self_of_head {p : Char → Bool} (l : List Char)
    (h : ∀ c t, l = c :: t → p c = false) : l.dropWhile p = l := by
  cases l with
  | nil => rfl
  | cons c t => simp [List.dropWhile, h c t rfl]

theorem py_strip_head_false {l t : List Char} {c : Char}
    (h : py_strip l = c :: t) : py_is_space c = false :=
  dropWhile_head_false h

theorem py_strip_getLast_false {l : List Char} {c : Char}
    (h : (py_strip l).getLast? = some c) : py_is_space c = false := by
  unfold py_strip py_lstrip at h
  rcases dropWhile_getLast? (p := py_is_space) (py_rstrip l) with h2 | h2
  · rw [h2] at h
    simp at h
  · rw [h2] at h
    unfold py_rstrip at h
    rw [List.getLast?_reverse] at h
    cases hd : (l.reverse.dropWhile py_is_space) with
    | nil => rw [hd] at h; simp at h
    | cons x xs =>
      rw [hd] at h
      simp only [List.head?_cons, Option.some.injEq] at h
      subst h
      exact dropWhile_head_false hd

theorem py_strip_of_clean (y : List Char)
    (hh : ∀ c t, y = c :: t → py_is_space c = false)
    (hl : ∀ c, y.getLast? = some c → py_is_space c = false) :
    py_strip y = y := by
  unfold py_strip py_rstrip py_lstrip
  have h1 : y.reverse.dropWhile py_is_space = y.reverse := by
    apply dropWhile_eq_self_of_head
    intro c t hct
    apply hl
    rw [← List.head?_reverse, hct]
    rfl
  rw [h1, List.reverse_reverse]
  exact dropWhile_eq_self_of_head y hh

theorem py_strip_idem (l : List Char) : py_strip (py_strip l) = py_strip l := by
  apply py_strip_of_clean
  · intro c t h
    exact py_strip_head_false h
  · intro c h
    exact py_strip_getLast_false h

theorem mem_py_strip {c : Char} {l : List Char} (h : c ∈ py_strip l) : c ∈ l := by
  unfold py_strip py_lstrip py_rstrip at h
  have h1 := mem_dropWhile h
  rw [List.mem_reverse] at h1
  have h2 := mem_dropWhile h1
  rwa [List.mem_reverse] at h2

theorem mem_join_sep {sep : List Char} {ls : List (List Char)} {c : Char}
    (h : c ∈ join_sep sep ls) : c ∈ sep ∨ ∃ l ∈ ls, c ∈ l := by
  induction ls with
  | nil => simp [join_sep] at h
  | cons x xs ih =>
    cases xs with
    | nil =>
      simp only [join_sep] at h
      exact Or.inr ⟨x, by simp, h⟩
    | cons y ys =>
      simp only [join_sep, List.append_assoc, List.mem_append] at h
      rcases h with h | h | h
      · exact Or.inr ⟨x, by simp, h⟩
      · exact Or.inl h
      · rcases ih h with h2 | ⟨l, hl, hc⟩
        · exact Or.inl h2
        · exact Or.inr ⟨l, List.mem_cons_of_mem x hl, hc⟩

theorem mem_clean_lines {l : List Char} :
    ∀ (rest acc : List (List Char)), l ∈ clean_lines acc rest →
      l ∈ acc ∨ (l ∈ rest ∧ line_has_glyph l = false) := by
  intro rest
  induction rest with
  | nil =>
    intro acc h
    simp only [clean_lines] at h
    exact Or.inl h
  | cons line rs ih =>
    intro acc h
    simp only [clean_lines] at h
    split at h
    · rcases ih acc h with h2 | ⟨h2, h3⟩
      · exact Or.inl h2
      · exact Or.inr ⟨List.mem_cons_of_mem line h2, h3⟩
    · rename_i hg
      split at h
      · rcases ih acc h with h2 | ⟨h2, h3⟩
        · exact Or.inl h2
        · exact Or.inr ⟨List.mem_cons_of_mem line h2, h3⟩
      · rcases ih _ h with h2 | ⟨h2, h3⟩
        · rcases List.mem_append.mp h2 with h4 | h4
          · exact Or.inl h4
          · simp only [List.mem_singleton] at h4
            subst h4
            exact Or.inr ⟨List.mem_cons_self l rs, by simpa using hg⟩
        · exact Or.inr ⟨List.mem_cons_of_mem line h2, h3⟩

/-! ## Claim theorems -/

/-- Claim C8: destroying a workspace never raises to its caller: on an
already-removed path it is a no-op, and a failing removal is swallowed
after logging, so the cleanup always returns normally. -/
theorem claim_C8 (path_exists : Bool) (rmtree_result : Except String Unit) :
    cleanup_workspace path_exists rmtree_result = Except.ok () := by
  cases path_exists <;> cases rmtree_result <;> rfl

/-- Claim C7: for every request body outcome, normal or exceptional, the
chat trace records exactly one cleanup attempt when keep_workspace is
false and none when it is true, and the body outcome is passed through
unchanged. -/
theorem claim_C7 (keep_workspace : Bool) (body_events : List ChatEvent)
    (outcome : Except String Unit)
    (h : ChatEvent.cleanupAttempt ∉ body_events) :
    (chat_trace keep_workspace (body_events, outcome)).1.count ChatEvent.cleanupAttempt
      = (if keep_workspace then 0 else 1)
    ∧ (chat_trace keep_workspace (body_events, outcome)).2 = outcome := by
  have h0 : body_events.count ChatEvent.cleanupAttempt = 0 := List.count_eq_zero.mpr h
  constructor
  · cases keep_workspace <;>
      simp [chat_trace, try_finally_trace, List.count_cons, List.count_append, h0]
  · rfl

/-- Witness for C7 at a concrete exceptional body with retention off. -/
theorem claim_C7_witness :
    (chat_trace false ([ChatEvent.step], Except.error "boom")).1.count ChatEvent.cleanupAttempt
      = (if false then 0 else 1) :=
  (claim_C7 false [ChatEvent.step] (Except.error "boom") (by decide)).1

/-- Claim C9: an empty configured token forces an unavailable probe result,
and when the version check itself succeeded the result carries the token
diagnostic; a missing executable or a non-zero version check exit also
force an unavailable result. -/
theorem claim_C9 (spawn : SpawnOutcome) (gh_token default_model : String) :
    (gh_token = "" →
      (check_copilot_available spawn gh_token default_model).available = false)
    ∧ (spawn = SpawnOutcome.notFound →
      (check_copilot_available spawn gh_token default_model).available = false)
    ∧ (∀ so se c, spawn = SpawnOutcome.completed so se c → c ≠ 0 →
      (check_copilot_available spawn gh_token default_model).available = false)
    ∧ (∀ so se, spawn = SpawnOutcome.completed so se 0 → gh_token = "" →
      (check_copilot_available spawn gh_token default_model).error
        = some "GH_TOKEN or GITHUB_TOKEN not set. Create a PAT with Copilot Requests permission."
      ∧ (check_copilot_available spawn gh_token default_model).has_token = some false) := by
  refine ⟨?_, ?_, ?_, ?_⟩
  · intro ht
    cases spawn with
    | notFound => rfl
    | completed so se c =>
      simp only [check_copilot_available]
      split
      · rfl
      · simp [ht]
  · intro hs
    subst hs
    rfl
  · intro so se c hs hc
    subst hs
    simp [check_copilot_available, hc]
  · intro so se hs ht
    subst hs
    simp [check_copilot_available, ht]

/-- Witness for C9: the CLI answers the version check with exit zero but no
token is configured, and the probe still reports unavailable. -/
theorem claim_C9_witness :
    (check_copilot_available (SpawnOutcome.completed "1.0.0".toList [] 0) ""
      "claude-sonnet-4").available = false :=
  (claim_C9 (SpawnOutcome.completed "1.0.0".toList [] 0) "" "claude-sonnet-4").1 rfl

/-- Claim C10: a non-zero exit with empty stderr makes the response text
the fixed fallback string, which is neither empty nor taken from stdout. -/
theorem claim_C10 (stdout : List Char) (code : Int) (h : code ≠ 0) :
    response_text stdout [] code = "Copilot CLI error".toList
    ∧ "Copilot CLI error".toList ≠ ([] : List Char) := by
  constructor
  · simp [response_text, h]
  · decide

/-- Witness for C10 at exit code two with stdout present. -/
theorem claim_C10_witness :
    response_text "out".toList [] 2 = "Copilot CLI error".toList :=
  (claim_C10 "out".toList 2 (by decide)).1

/-- Counterexample to C4 as stated: at exit code two with empty stderr the
response text is the fixed fallback, not the trimmed stderr. -/
theorem claim_C4_counterexample :
    response_text "out".toList [] 2 ≠ py_strip ([] : List Char)
    ∧ response_text "out".toList [] 2 = "Copilot CLI error".toList := by
  constructor <;> decide

/-- Claim C4 as amended: a non-zero exit with non-empty stderr makes the
response text the trimmed stderr, a zero exit makes it the sanitized
stdout, the error branch never reads stdout, and the selection is a total
function, so a non-zero exit cannot raise. -/
theorem claim_C4 (stdout stderr : List Char) (code : Int) :
    (code ≠ 0 → stderr ≠ [] → response_text stdout stderr code = py_strip stderr)
    ∧ (code = 0 → response_text stdout stderr code = parse_copilot_output stdout)
    ∧ (∀ stdout2, code ≠ 0 →
        response_text stdout stderr code = response_text stdout2 stderr code) := by
  refine ⟨?_, ?_, ?_⟩
  · intro hc hs
    simp [response_text, hc, hs]
  · intro hc
    simp [response_text, hc]
  · intro s2 hc
    simp [response_text, hc]

/-- Witness for C4 at exit code one with whitespace-padded stderr. -/
theorem claim_C4_witness :
    response_text "a".toList " b ".toList 1 = py_strip " b ".toList :=
  (claim_C4 "a".toList " b ".toList 1).1 (by decide) (by decide)

theorem prompt_segment_of_recognized (m : Message) (h : recognized_role m = true) :
    prompt_segment m = some (segment_text m) := by
  unfold recognized_role at h
  simp only [Bool.or_eq_true, beq_iff_eq] at h
  unfold prompt_segment segment_text
  rcases h with (h | h) | h <;> simp [h]

theorem prompt_segment_of_unrecognized (m : Message) (h : recognized_role m = false) :
    prompt_segment m = none := by
  unfold recognized_role at h
  simp only [Bool.or_eq_false_iff, beq_eq_false_iff_ne, ne_eq] at h
  unfold prompt_segment
  simp [h.1.1, h.1.2, h.2]

theorem filterMap_segment_eq_nil (msgs : List Message)
    (h : msgs.any recognized_role = false) :
    msgs.filterMap prompt_segment = [] := by
  rw [List.filterMap_eq_nil_iff]
  intro m hm
  apply prompt_segment_of_unrecognized
  rw [List.any_eq_false] at h
  simpa using h m hm

theorem filterMap_segment_ne_nil (msgs : List Message)
    (h : msgs.any recognized_role = true) :
    msgs.filterMap prompt_segment ≠ [] := by
  rw [List.any_eq_true] at h
  obtain ⟨m, hm, hr⟩ := h
  intro hnil
  rw [List.filterMap_eq_nil_iff] at hnil
  have h2 := hnil m hm
  rw [prompt_segment_of_recognized m (by simpa using hr)] at h2
  cases h2

theorem join_sep_cons_of_ne_nil (sep x : List Char) (ls : List (List Char))
    (h : ls ≠ []) : join_sep sep (x :: ls) = x ++ sep ++ join_sep sep ls := by
  cases ls with
  | nil => exact absurd rfl h
  | cons y ys => rfl

/-- Claim C1 as amended: the prompt built from a message history is the
blank-line join of one role-tagged segment per message whose effective
role is system, user or assistant (an absent role key defaults to user);
a message whose role key holds any other value contributes no segment at
all; the empty message list yields the empty prompt. -/
theorem claim_C1 (messages : List Message) :
    build_prompt messages = build_prompt_spec messages := by
  induction messages with
  | nil => rfl
  | cons m rest ih =>
    cases hr : recognized_role m with
    | false =>
      have hseg := prompt_segment_of_unrecognized m hr
      simp only [build_prompt, build_prompt_spec, List.filterMap_cons, hseg, hr,
        Bool.false_eq_true, if_false]
      exact ih
    | true =>
      have hseg := prompt_segment_of_recognized m hr
      cases ha : rest.any recognized_role with
      | false =>
        have hnil := filterMap_segment_eq_nil rest ha
        simp only [build_prompt, build_prompt_spec, List.filterMap_cons, hseg, hr, ha,
          hnil, if_true, Bool.false_eq_true, if_false]
        rfl
      | true =>
        have hne := filterMap_segment_ne_nil rest ha
        have hstep : build_prompt (m :: rest)
            = segment_text m ++ ('\n' :: '\n' :: []) ++ build_prompt rest := by
          unfold build_prompt
          rw [List.filterMap_cons, hseg]
          exact join_sep_cons_of_ne_nil _ _ _ hne
        rw [hstep, ih]
        simp [build_prompt_spec, hr, ha]

/-- Counterexample to C1 as stated: a message whose role key holds the
unrecognized value tool produces no segment at all, not a User-tagged
segment, so the claimed one-segment-per-message shape fails. -/
theorem claim_C1_counterexample :
    build_prompt [Message.mk (some "tool") (some "x")] = []
    ∧ ("User: x".toList : List Char) ≠ [] := by
  constructor <;> decide

theorem word_chunks_general (ws : List (List Char)) :
    ∀ (off total : Nat), total = off + ws.length →
    (ws.mapIdx fun i w =>
      StreamChunk.delta (w ++ (if off + i < total - 1 then [' '] else []))
        (if off + i < total - 1 then none else some "stop")) = deltas_spec ws := by
  induction ws with
  | nil => intro off total h; rfl
  | cons w ws ih =>
    intro off total h
    rw [List.mapIdx_cons]
    cases ws with
    | nil =>
      have hc : ¬ (off + 0 < total - 1) := by
        simp only [List.length_cons, List.length_nil] at h
        omega
      simp only [hc, if_false, List.append_nil, List.mapIdx_nil, deltas_spec]
    | cons w2 ws2 =>
      have hc : off + 0 < total - 1 := by
        simp only [List.length_cons] at h
        omega
      have harith : ∀ i : Nat, off + (i + 1) = (off + 1) + i := by intro i; omega
      have hfun :
          (fun i w' => StreamChunk.delta (w' ++ (if off + (i + 1) < total - 1 then [' '] else []))
            (if off + (i + 1) < total - 1 then none else some "stop"))
          = (fun i w' => StreamChunk.delta (w' ++ (if (off + 1) + i < total - 1 then [' '] else []))
            (if (off + 1) + i < total - 1 then none else some "stop")) := by
        funext i w'
        rw [harith i]
      have htail := ih (off + 1) total (by simp only [List.length_cons] at h ⊢; omega)
      simp only [hc, if_true, deltas_spec]
      rw [hfun, htail]

/-- Claim C6: the simulated stream for a completed response consists of
one delta chunk per word of the single-space split, every word but the
last carrying a trailing space and no finish reason, the last word alone
carrying the terminal stop reason; exactly when files exist, one chunk
carrying the full file list follows; the sequence ends with the literal
sentinel frame.  In particular the response hello world with no files
yields exactly two word deltas and the sentinel. -/
theorem claim_C6 (content : List Char) (files : List Artifact) :
    stream_chat_chunks content files
      = deltas_spec (py_split ' ' content)
        ++ (if files = [] then [] else [StreamChunk.fileList files])
        ++ [StreamChunk.done "data: [DONE]\n\n".toList]
    ∧ stream_chat_chunks "hello world".toList []
      = [StreamChunk.delta "hello ".toList none,
         StreamChunk.delta "world".toList (some "stop"),
         StreamChunk.done "data: [DONE]\n\n".toList] := by
  constructor
  · have hwords : word_chunks (py_split ' ' content) = deltas_spec (py_split ' ' content) := by
      have := word_chunks_general (py_split ' ' content) 0 (py_split ' ' content).length
        (by omega)
      rw [← this]
      unfold word_chunks
      congr 1
      funext i w
      simp only [Nat.zero_add]
    rw [stream_chat_chunks, hwords]
    congr 1
    cases files <;> simp
  · decide

theorem unsextet_sextet : ∀ n < 64, unsextet (sextet n) = n := by decide

theorem sextet_ne_pad : ∀ n < 64, sextet n ≠ '=' := by decide

theorem b64_roundtrip (l : List Nat) (h : ∀ b ∈ l, b < 256) :
    b64decode (b64encode l) = l := by
  induction l using b64encode.induct with
  | case1 => rfl
  | case2 a =>
    have ha : a < 256 := h a (by simp)
    simp only [b64encode, b64decode, if_pos]
    rw [unsextet_sextet _ (by omega : a / 4 < 64),
      unsextet_sextet _ (by omega : a % 4 * 16 < 64)]
    have e1 : a / 4 * 4 + a % 4 * 16 / 16 = a := by omega
    rw [e1]
  | case3 a b =>
    have ha : a < 256 := h a (by simp)
    have hb : b < 256 := h b (by simp)
    simp only [b64encode, b64decode]
    rw [if_neg (sextet_ne_pad _ (by omega : b % 16 * 4 < 64)), if_pos trivial]
    rw [unsextet_sextet _ (by omega : a / 4 < 64),
      unsextet_sextet _ (by omega : a % 4 * 16 + b / 16 < 64),
      unsextet_sextet _ (by omega : b % 16 * 4 < 64)]
    have e1 : a / 4 * 4 + (a % 4 * 16 + b / 16) / 16 = a := by omega
    have e2 : (a % 4 * 16 + b / 16) % 16 * 16 + b % 16 * 4 / 4 = b := by omega
    rw [e1, e2]
  | case4 a b c rest ih =>
    have ha : a < 256 := h a (by simp)
    have hb : b < 256 := h b (by simp)
    have hc : c < 256 := h c (by simp)
    have ihr := ih (fun x hx => h x (by simp [hx]))
    simp only [b64encode, b64decode]
    rw [if_neg (sextet_ne_pad _ (by omega : b % 16 * 4 + c / 64 < 64)),
      if_neg (sextet_ne_pad _ (by omega : c % 64 < 64))]
    rw [unsextet_sextet _ (by omega : a / 4 < 64),
      unsextet_sextet _ (by omega : a % 4 * 16 + b / 16 < 64),
      unsextet_sextet _ (by omega : b % 16 * 4 + c / 64 < 64),
      unsextet_sextet _ (by omega : c % 64 < 64)]
    have e1 : a / 4 * 4 + (a % 4 * 16 + b / 16) / 16 = a := by omega
    have e2 : (a % 4 * 16 + b / 16) % 16 * 16 + (b % 16 * 4 + c / 64) / 4 = b := by omega
    have e3 : (b % 16 * 4 + c / 64) % 4 * 64 + c % 64 = c := by omega
    rw [e1, e2, e3, ihr]

/-- Claim C3: for every file of bytes that survives the scan filters, the
base64 payload of the returned record decodes back to exactly those bytes;
when the bytes are valid UTF-8 the text field holds their decoding and the
binary flag is false, and when they are not the text field is absent and
the binary flag is true. -/
theorem claim_C3 (e : FileEntry) (a : Artifact)
    (hf : scan_file e = some a) (hb : ∀ b ∈ e.content, b < 256) :
    b64decode a.content_base64 = e.content
    ∧ (∀ t, utf8_decode e.content = some t →
        a.content_text = some t ∧ a.is_binary = false)
    ∧ (utf8_decode e.content = none →
        a.content_text = none ∧ a.is_binary = true) := by
  simp only [scan_file] at hf
  split at hf
  · cases hf
  split at hf
  · cases hf
  split at hf
  · cases hf
  split at hf
  · cases hf
  split at hf
  · cases hf
  rw [Option.some.injEq] at hf
  subst hf
  refine ⟨b64_roundtrip e.content hb, ?_, ?_⟩
  · intro t ht
    simp [ht]
  · intro ht
    simp [ht]

/-- Witness for C3 at the concrete one-file snapshot holding the text hi. -/
theorem claim_C3_witness :
    b64decode demo_artifact.content_base64 = demo_entry.content :=
  (claim_C3 demo_entry demo_artifact (by decide) (by decide)).1

/-- Claim C2 as amended: no file returned by the scan has an ignored
directory component among its ancestors, a lowercased extension in the
ignored extension set, a name in the ignored filename set, a dotfile name
outside the two-name allow list, or a size above one mebibyte.  The
lowercasing qualifier is forced by the counterexample: the one mixed-case
entry of the ignored extension set is compared against lowercased
suffixes and therefore never matches. -/
theorem claim_C2 (snapshot : List FileEntry) (a : Artifact)
    (h : a ∈ scan_workspace_files snapshot) :
    (∀ d ∈ a.path.dropLast, d ∉ IGNORED_DIRS)
    ∧ a.extension ∉ IGNORED_EXTENSIONS
    ∧ a.name ∉ IGNORED_FILES
    ∧ (starts_with_dot a.name = true → a.name ∈ ALLOWED_DOTFILES)
    ∧ a.size ≤ 1024 * 1024 := by
  rw [scan_workspace_files, List.mem_filterMap] at h
  obtain ⟨e, _he, hf⟩ := h
  simp only [scan_file] at hf
  split at hf
  · cases hf
  rename_i h1
  split at hf
  · cases hf
  rename_i h2
  split at hf
  · cases hf
  rename_i h3
  split at hf
  · cases hf
  rename_i h4
  split at hf
  · cases hf
  rename_i h5
  rw [Option.some.injEq] at hf
  subst hf
  dsimp only
  simp only [List.any_eq_true, decide_eq_true_eq, not_exists, not_and] at h1
  simp only [Bool.and_eq_true, not_and] at h4
  refine ⟨?_, h2, h3, ?_, by omega⟩
  · intro d hd
    have hpath : (e.dirs ++ [e.name]).dropLast = e.dirs := by simp
    rw [hpath] at hd
    exact h1 d hd
  · intro hdot
    simpa using h4 hdot

/-- Witness for C2 at the concrete one-file snapshot holding the text hi. -/
theorem claim_C2_witness : demo_artifact.size ≤ 1024 * 1024 :=
  (claim_C2 demo_snapshot demo_artifact (by decide)).2.2.2.2

/-- Counterexample to C2 as stated: the file x.DS_Store has the pathlib
suffix .DS_Store, which is verbatim in the ignored extension set, yet the
scan returns the file, because the membership test lowercases the suffix
first and the mixed-case set entry can never match a lowercased suffix. -/
theorem claim_C2_counterexample :
    py_suffix "x.DS_Store" ∈ IGNORED_EXTENSIONS
    ∧ (scan_workspace_files ds_store_snapshot).map Artifact.name = ["x.DS_Store"] := by
  constructor <;> decide

theorem glyph_ne_newline : ∀ g ∈ spinner_glyphs, g ≠ '\n' := by decide

theorem glyphs_not_in_placeholder :
    ∀ g ∈ spinner_glyphs, g ∉ "No response from Copilot".toList := by decide

theorem not_mem_of_no_glyph {g : Char} {line : List Char}
    (hg : g ∈ spinner_glyphs) (h : line_has_glyph line = false) : g ∉ line := by
  unfold line_has_glyph at h
  rw [List.any_eq_false] at h
  intro hmem
  have h2 := h g hg
  simp only [List.elem_iff] at h2
  exact h2 hmem

/-- Claim C5 as amended: the sanitizer is a pure total function whose
output never contains a spinner glyph on any line, has leading blank lines
removed and is trimmed (it is a fixed point of the strip), and which maps
empty input to the fixed placeholder.  ANSI escape sequences are removed
in one left-to-right pass deleting each leftmost match, but the pass is
not iterated, so fragments adjoining a deleted match can juxtapose into a
new escape sequence that survives in the output, as the counterexample
shows; the claimed universal absence of escape sequences therefore fails. -/
theorem claim_C5 (s : List Char) :
    parse_copilot_output [] = "No response from Copilot".toList
    ∧ py_strip (parse_copilot_output s) = parse_copilot_output s
    ∧ (∀ g ∈ spinner_glyphs, g ∉ parse_copilot_output s) := by
  refine ⟨rfl, ?_, ?_⟩
  · unfold parse_copilot_output
    split
    · decide
    · exact py_strip_idem _
  · intro g hg
    unfold parse_copilot_output
    split
    · exact glyphs_not_in_placeholder g hg
    · intro hmem
      have h1 := mem_py_strip hmem
      rcases mem_join_sep h1 with h2 | ⟨line, hline, hc⟩
      · simp only [List.mem_singleton] at h2
        exact glyph_ne_newline g hg h2
      · rcases mem_clean_lines _ _ hline with h3 | ⟨_, h4⟩
        · simp at h3
        · exact not_mem_of_no_glyph hg h4 hc

/-- Witness for C5 at a concrete raw output. -/
theorem claim_C5_witness : '⠋' ∉ parse_copilot_output "x".toList :=
  (claim_C5 "x".toList).2.2 '⠋' (by decide)

/-- Counterexample to C5 as stated: on the concrete raw output whose
deleted leftmost match joins a leading ESC to a literal bracketed tail,
the sanitized result still contains a complete ANSI escape sequence. -/
theorem claim_C5_counterexample :
    contains_ansi (parse_copilot_output reformed_ansi_input) = true
    ∧ contains_ansi reformed_ansi_input = true := by
  constructor <;> decide
